import Mathlib

/-!
Verification of the interactive portfolio delay simulator of `app.py`
(LEAN-arch/vertex).  The relevant program logic is:

* `filter_df_by_site` (app.py lines 156-159): site-scoped filtering of a
  data frame, returning a fresh copy.
* the Interactive Portfolio Modeler page (app.py lines 219-267):
  - lines 225-226: reset of the session working copy to a fresh copy of the
    baseline portfolio;
  - lines 231-237: simulation controls (task selectbox, delay slider, and
    the empty-portfolio warning);
  - lines 240-254: the delay-simulation block, which copies the stored
    working copy, shifts the `Finish` of the first row whose `Task` equals
    the selected task by `timedelta(weeks=delay_weeks)`, computes
    `cost_impact = delay_weeks * Weekly_Cost_k`, and reports the first row
    whose `Dependencies` equals the selected task;
  - lines 256-263: rendering of the impact banner.

Rows are modelled as records over the columns `app.py` accesses
(`Task`, `Site`, `Start`, `Finish`, `Weekly_Cost_k`, `Dependencies`,
`Status`; the data generator lives in `utils.py`, outside this tree, and
the spec section 3 names the same fields).  Timestamps are modelled as
integer day counts, so `timedelta(weeks=w)` is `7 * w` days.  Pandas data
frames are modelled as `List Task`; the session-state aliasing claims are
modelled with a small explicit heap in which `df.copy()` allocates a fresh
cell, which is exactly what pandas `copy` provides for these operations.
-/

namespace Vertex

/-- One row of the project portfolio data frame, with the columns that
`app.py` reads (`Task`, `Site`, `Start`, `Finish`, `Weekly_Cost_k`,
`Dependencies`, `Status`).  `Start`/`Finish` are day counts;
`Dependencies` is `none` for a missing (NaN) dependency, in which case
the pandas comparison `Dependencies == selected_task` is false. -/
structure Task where
  task : String
  site : String
  start : Int
  finish : Int
  weekly_cost_k : Int
  dependencies : Option String
  status : String
deriving DecidableEq, Repr, Inhabited

/-- The outputs of the simulation block (app.py lines 240-254): the
frame-local `gantt_df` that is rendered, `cost_impact`, and
`impact_text` (the empty string when no cascade message was produced,
matching the Python initialisation `impact_text = ""`). -/
structure SimResult where
  gantt_df : List Task
  cost_impact : Int
  impact_text : String
deriving DecidableEq, Repr

/-- Python truthiness of `selected_task` in the guard on app.py line 244:
`None` and the empty string are falsy. -/
def optStrTruthy : Option String → Bool
  | none => false
  | some s => !(s == "")

/-- app.py line 249: `gantt_df.loc[task_idx, 'Finish'] += timedelta(weeks=delay_weeks)`
applied to one row; only the `finish` field changes. -/
def delayFinish (delay_weeks : Nat) (t : Task) : Task :=
  { t with finish := t.finish + 7 * (delay_weeks : Int) }

/-- In-place update of the row at position `i` (the row label found via
`task_row.name`; the working copies carry the unique labels of the
original portfolio frame, so the label denotes exactly this position). -/
def applyDelayAt : List Task → Nat → Nat → List Task
  | [], _, _ => []
  | t :: ts, 0, w => delayFinish w t :: ts
  | t :: ts, i + 1, w => t :: applyDelayAt ts i w

/-- app.py line 254: the dependency-alert f-string, naming the delayed
task and the impacted task. -/
def cascadeMessage (selected impacted : String) : String :=
  "🚨 **Dependency Alert:** Delaying \x27" ++ selected ++
    "\x27 will cause a cascading delay to **\x27" ++ impacted ++ "\x27**."

/-- app.py lines 251-254: scan the (already shifted) `gantt_df` for rows
whose `Dependencies` equals the selected task; if any, the message names
the first such row, otherwise `impact_text` stays `""`. -/
def cascadeText (gantt2 : List Task) (sel : String) : String :=
  match gantt2.filter (fun r => r.dependencies == some sel) with
  | [] => ""
  | impacted :: _ => cascadeMessage sel impacted.task

/-- app.py lines 247-254, once a matching row `task_row` was found:
shift the first matching row's finish in place, compute
`cost_impact = delay_weeks * task_row['Weekly_Cost_k']`, and scan for a
dependent task. -/
def simulateDelay (gantt_df : List Task) (sel : String) (delay_weeks : Nat)
    (task_row : Task) : SimResult :=
  { gantt_df := applyDelayAt gantt_df (gantt_df.findIdx fun r => r.task == sel) delay_weeks
    cost_impact := (delay_weeks : Int) * task_row.weekly_cost_k
    impact_text := cascadeText
      (applyDelayAt gantt_df (gantt_df.findIdx fun r => r.task == sel) delay_weeks) sel }

/-- app.py lines 245-254: `task_row_list = gantt_df[gantt_df['Task'] == selected_task]`;
when the filter is empty nothing happens (`cost_impact` stays `0`,
`impact_text` stays `""`), otherwise `task_row = task_row_list.iloc[0]`
and the delay is applied. -/
def simulateHit (gantt_df : List Task) (sel : String) (delay_weeks : Nat) : SimResult :=
  match gantt_df.filter (fun r => r.task == sel) with
  | [] => { gantt_df := gantt_df, cost_impact := 0, impact_text := "" }
  | task_row :: _ => simulateDelay gantt_df sel delay_weeks task_row

/-- app.py lines 240-254 as a pure function of the value of the stored
working copy: line 240 copies the stored frame (value semantics here; the
heap-level aliasing is modelled separately by `simBlockH`), lines 241-242
initialise `impact_text = ""` and `cost_impact = 0`, and line 244 guards
with `delay_weeks > 0 and selected_task and not gantt_df.empty`. -/
def simulate (edited_portfolio : List Task) (selected_task : Option String)
    (delay_weeks : Nat) : SimResult :=
  if 0 < delay_weeks ∧ optStrTruthy selected_task = true ∧ edited_portfolio ≠ [] then
    simulateHit edited_portfolio (selected_task.getD "") delay_weeks
  else
    { gantt_df := edited_portfolio, cost_impact := 0, impact_text := "" }

/-- app.py line 263: the success banner shown when `impact_text` is falsy. -/
def noConflictText : String := "✅ No direct dependency conflicts detected."

/-- app.py lines 260-263: render `impact_text` as an error banner when it
is non-empty, otherwise the no-conflict success banner. -/
def impactBanner (impact_text : String) : String :=
  if impact_text == "" then noConflictText else impact_text

/-- app.py lines 231-237: the simulation controls.  For an empty working
copy the page warns "No portfolio data for selected site.", no task is
selectable (`selected_task = None`) and `delay_weeks = 0`; otherwise the
selectbox offers exactly the `Task` column (modelled by an arbitrary
`choice` index reduced into range) and the slider is clamped to 0..12. -/
def simulationControls : List Task → Nat → Nat → Option String × Nat × Option String
  | [], _, _ => (none, 0, some "No portfolio data for selected site.")
  | t :: ts, choice, slider =>
      (some (((t :: ts).getD (choice % (t :: ts).length) t).task), min slider 12, none)

/-- app.py line 109: the sentinel site selection meaning "all sites". -/
def ALL_SITES : String := "West Coast (Overall)"

/-- app.py lines 156-159: `filter_df_by_site`.  For a non-sentinel
selection it keeps exactly the rows whose `Site` equals the selection;
for the sentinel it returns the whole frame.  (Both branches return a
fresh `.copy()`; the allocation side is modelled by `loadH` below.  The
`site_col in df.columns` test always holds in this model because every
row carries a `site` field.) -/
def filter_df_by_site (site_selection : String) (df : List Task) : List Task :=
  if site_selection ≠ ALL_SITES then df.filter (fun r => r.site == site_selection)
  else df

/-- A heap of data-frame cells, making pandas object identity explicit:
a reference is an index into `cells`, and `df.copy()` allocates a fresh
cell holding the same value. -/
structure Heap where
  cells : List (List Task)
deriving DecidableEq, Repr

/-- Dereference a frame reference (out-of-range reads give `[]`; the
theorems only dereference live references). -/
def readRef (h : Heap) (r : Nat) : List Task := h.cells.getD r []

/-- Allocate a fresh cell holding `v` and return its reference. -/
def allocRef (h : Heap) (v : List Task) : Heap × Nat :=
  (⟨h.cells ++ [v]⟩, h.cells.length)

/-- In-place mutation of the cell `r` (e.g. `df.loc[...] = ...`). -/
def writeRef (h : Heap) (r : Nat) (v : List Task) : Heap :=
  ⟨h.cells.set r v⟩

/-- `df.copy()`: a freshly allocated cell with the same value. -/
def dfCopy (h : Heap) (r : Nat) : Heap × Nat := allocRef h (readRef h r)

/-- app.py lines 156-159 at the heap level: both branches of
`filter_df_by_site` end in `.copy()`, so the result is a fresh cell
holding the filtered value and the baseline cell is untouched. -/
def loadH (h : Heap) (baseline : Nat) (site_selection : String) : Heap × Nat :=
  allocRef h (filter_df_by_site site_selection (readRef h baseline))

/-- app.py lines 225-226: `st.session_state.edited_portfolio = portfolio_df.copy()`
(on first visit or on the Reset Simulation button). -/
def resetH (h : Heap) (baseline : Nat) : Heap × Nat := dfCopy h baseline

/-- Two successive resets (app.py lines 225-226 run twice): the final
heap together with the references of the first and the second copy. -/
def resetTwice (h : Heap) (baseline : Nat) : Heap × Nat × Nat :=
  ((resetH (resetH h baseline).1 baseline).1, (resetH h baseline).2,
    (resetH (resetH h baseline).1 baseline).2)

/-- app.py lines 240-254 at the heap level: line 240 copies the stored
working copy `edited` into the frame-local `gantt_df`, and the block body
(lines 241-254, the pure `simulate`) mutates only that fresh cell.  No
statement in the block assigns to `st.session_state.edited_portfolio`. -/
def simBlockH (h : Heap) (edited : Nat) (selected_task : Option String)
    (delay_weeks : Nat) : Heap × Nat × Int × String :=
  let p := dfCopy h edited
  let r := simulate (readRef p.1 p.2) selected_task delay_weeks
  (writeRef p.1 p.2 r.gantt_df, p.2, r.cost_impact, r.impact_text)

/-- `n + 1` successive reruns of the simulation block with the same
selection and delay (each Streamlit rerun re-executes lines 240-254),
returning the final heap and the reference of the last rendered
`gantt_df`. -/
def runSims (e : Nat) (sel : Option String) (d : Nat) : Nat → Heap → Heap × Nat
  | 0, h => ((simBlockH h e sel d).1, (simBlockH h e sel d).2.1)
  | n + 1, h => runSims e sel d n (simBlockH h e sel d).1

/-- Sample rows used by the concrete witnesses and counterexamples. -/
def taskA : Task :=
  { task := "A", site := "San Diego", start := 0, finish := 10,
    weekly_cost_k := 5, dependencies := none, status := "On Track" }

/-- A row depending on `taskA`. -/
def taskB : Task :=
  { task := "B", site := "Seattle", start := 10, finish := 20,
    weekly_cost_k := 3, dependencies := some "A", status := "At Risk" }

/-- A row with no dependency. -/
def taskC : Task :=
  { task := "C", site := "San Diego", start := 0, finish := 5,
    weekly_cost_k := 2, dependencies := none, status := "Complete" }

/-- A second row that duplicates the name of `taskA`. -/
def taskAdup : Task :=
  { task := "A", site := "Seattle", start := 0, finish := 30,
    weekly_cost_k := 9, dependencies := none, status := "On Track" }

/-- A one-cell heap whose cell 0 is the stored working copy `[taskA, taskB]`. -/
def hEx : Heap := ⟨[[taskA, taskB]]⟩

/-- Decomposition of a non-empty filter result: the list splits at the
first row satisfying `p`. -/
lemma filter_split {l : List Task} {p : Task → Bool} {x : Task} {xs : List Task}
    (h : l.filter p = x :: xs) :
    ∃ pre post, l = pre ++ x :: post ∧ (∀ r ∈ pre, p r = false) ∧
      p x = true ∧ post.filter p = xs := by
  induction l with
  | nil => simp at h
  | cons a as ih =>
    cases hp : p a with
    | true =>
      rw [List.filter_cons_of_pos hp] at h
      obtain ⟨rfl, hxs⟩ := List.cons.inj h
      exact ⟨[], as, rfl, by simp, hp, hxs⟩
    | false =>
      rw [List.filter_cons_of_neg (by simp [hp])] at h
      obtain ⟨pre, post, rfl, hpre, hx, hpost⟩ := ih h
      refine ⟨a :: pre, post, rfl, ?_, hx, hpost⟩
      intro r hr
      rcases List.mem_cons.mp hr with rfl | hr
      · exact hp
      · exact hpre r hr

/-- `findIdx` finds the position of the first row satisfying `p`. -/
lemma findIdx_first (pre : List Task) (x : Task) (post : List Task) (p : Task → Bool)
    (hpre : ∀ r ∈ pre, p r = false) (hx : p x = true) :
    (pre ++ x :: post).findIdx p = pre.length := by
  induction pre with
  | nil => simp [List.findIdx_cons, hx]
  | cons a as ih =>
    have ha : p a = false := hpre a (by simp)
    have ihh := ih (fun r hr => hpre r (by simp [hr]))
    simp [List.findIdx_cons, ha, ihh]

/-- Updating the row at the position right after `pre` delays exactly
that row. -/
lemma applyDelayAt_append (pre : List Task) (x : Task) (post : List Task) (d : Nat) :
    applyDelayAt (pre ++ x :: post) pre.length d = pre ++ delayFinish d x :: post := by
  induction pre with
  | nil => rfl
  | cons a as ih => simp [applyDelayAt, ih]

/-- Delaying one row does not change which rows depend on `t`, nor their
names: the `task` projections of the dependency filter agree. -/
lemma filter_dep_delay (pre post : List Task) (row : Task) (d : Nat) (t : String) :
    (((pre ++ delayFinish d row :: post).filter
        fun r => r.dependencies == some t).map fun r => r.task) =
      (((pre ++ row :: post).filter fun r => r.dependencies == some t).map
        fun r => r.task) := by
  have h1 : (delayFinish d row).dependencies = row.dependencies := rfl
  have h2 : (delayFinish d row).task = row.task := rfl
  cases hr : (row.dependencies == some t) <;>
    simp [List.filter_append, List.filter_cons, h1, h2, hr]

/-- `getD` on an appended list, below the length of the left part. -/
lemma getD_append_lt {α : Type} (l l2 : List α) (i : Nat) (x : α)
    (h : i < l.length) : (l ++ l2).getD i x = l.getD i x := by
  induction l generalizing i with
  | nil => simp at h
  | cons a as ih =>
    cases i with
    | zero => rfl
    | succ j => exact ih j (Nat.lt_of_succ_lt_succ h)

/-- `getD` at exactly the length of the left part reads the next cell. -/
lemma getD_append_self {α : Type} (l l2 : List α) (a : α) (x : α) :
    (l ++ a :: l2).getD l.length x = a := by
  induction l with
  | nil => rfl
  | cons b bs ih => exact ih

/-- `set` at exactly the length of the left part replaces the next cell. -/
lemma set_append_self {α : Type} (l l2 : List α) (a b : α) :
    (l ++ a :: l2).set l.length b = l ++ b :: l2 := by
  induction l with
  | nil => rfl
  | cons c cs ih => simp [List.set, ih]

/-- `set` leaves every other position unchanged. -/
lemma getD_set_ne {α : Type} (l : List α) (i j : Nat) (v x : α) (h : i ≠ j) :
    (l.set i v).getD j x = l.getD j x := by
  induction l generalizing i j with
  | nil => rfl
  | cons a as ih =>
    cases i with
    | zero =>
      cases j with
      | zero => exact absurd rfl h
      | succ k => rfl
    | succ m =>
      cases j with
      | zero => rfl
      | succ k => exact ih m k (fun hh => h (by rw [hh]))

/-- The guard on app.py line 244 fails when the slider is at 0. -/
lemma simulate_of_zero (wc : List Task) (sel : Option String) :
    simulate wc sel 0 = { gantt_df := wc, cost_impact := 0, impact_text := "" } := by
  simp [simulate]

/-- The guard on app.py line 244 fails on an empty working copy. -/
lemma simulate_of_empty (sel : Option String) (d : Nat) :
    simulate [] sel d = { gantt_df := [], cost_impact := 0, impact_text := "" } := by
  simp [simulate]

/-- With a positive delay, a truthy selection and a non-empty frame the
guard passes and the block proceeds to the task lookup. -/
lemma simulate_hit (wc : List Task) (t : String) (d : Nat)
    (ht : t ≠ "") (hd : 0 < d) (hwc : wc ≠ []) :
    simulate wc (some t) d = simulateHit wc t d := by
  unfold simulate
  rw [if_pos ⟨hd, by simp [optStrTruthy, ht], hwc⟩]
  rfl

/-- Lookup hit: the filter on the `Task` column is non-empty. -/
lemma simulateHit_of_match (wc : List Task) (t : String) (d : Nat)
    (row : Task) (rest : List Task)
    (hm : wc.filter (fun r => r.task == t) = row :: rest) :
    simulateHit wc t d = simulateDelay wc t d row := by
  unfold simulateHit
  rw [hm]

/-- Lookup miss: the filter on the `Task` column is empty. -/
lemma simulateHit_of_nomatch (wc : List Task) (t : String) (d : Nat)
    (hm : wc.filter (fun r => r.task == t) = []) :
    simulateHit wc t d = { gantt_df := wc, cost_impact := 0, impact_text := "" } := by
  unfold simulateHit
  rw [hm]

/-- Full description of a successful simulation: the working copy splits
as `pre ++ row :: post` around the first row named `t`, and the block
delays exactly that row, charges `d * row.weekly_cost_k`, and scans the
shifted frame for a dependent. -/
lemma simulate_match (wc : List Task) (t : String) (d : Nat) (row : Task)
    (rest : List Task) (ht : t ≠ "") (hd : 0 < d)
    (hm : wc.filter (fun r => r.task == t) = row :: rest) :
    ∃ pre post,
      wc = pre ++ row :: post ∧ (∀ r ∈ pre, (r.task == t) = false) ∧
      simulate wc (some t) d =
        { gantt_df := pre ++ delayFinish d row :: post
          cost_impact := (d : Int) * row.weekly_cost_k
          impact_text := cascadeText (pre ++ delayFinish d row :: post) t } := by
  obtain ⟨pre, post, hwc, hpre, hx, hpost⟩ := filter_split hm
  have hwcne : wc ≠ [] := by rw [hwc]; simp
  have hidx : wc.findIdx (fun r => r.task == t) = pre.length := by
    rw [hwc]; exact findIdx_first pre row post _ hpre hx
  refine ⟨pre, post, hwc, hpre, ?_⟩
  rw [simulate_hit wc t d ht hd hwcne, simulateHit_of_match wc t d row rest hm]
  unfold simulateDelay
  rw [hidx, hwc, applyDelayAt_append]

/-- Net effect of the heap-level simulation block: one fresh cell holding
the rendered frame is appended, every existing cell (the stored working
copy included) is untouched, and the scalar outputs agree with the pure
`simulate`. -/
lemma simBlockH_spec (h : Heap) (e : Nat) (sel : Option String) (d : Nat) :
    (simBlockH h e sel d).1.cells =
        h.cells ++ [(simulate (readRef h e) sel d).gantt_df] ∧
    (simBlockH h e sel d).2.1 = h.cells.length ∧
    (simBlockH h e sel d).2.2.1 = (simulate (readRef h e) sel d).cost_impact ∧
    (simBlockH h e sel d).2.2.2 = (simulate (readRef h e) sel d).impact_text := by
  have hv : readRef (dfCopy h e).1 (dfCopy h e).2 = readRef h e :=
    getD_append_self h.cells [] (readRef h e) []
  refine ⟨?_, rfl, ?_, ?_⟩
  · show (h.cells ++ (readRef h e) :: []).set h.cells.length
        ((simulate (readRef (dfCopy h e).1 (dfCopy h e).2) sel d).gantt_df) =
      h.cells ++ (simulate (readRef h e) sel d).gantt_df :: []
    rw [hv]
    exact set_append_self h.cells [] (readRef h e) _
  · show (simulate (readRef (dfCopy h e).1 (dfCopy h e).2) sel d).cost_impact =
        (simulate (readRef h e) sel d).cost_impact
    rw [hv]
  · show (simulate (readRef (dfCopy h e).1 (dfCopy h e).2) sel d).impact_text =
        (simulate (readRef h e) sel d).impact_text
    rw [hv]

/-- The stored working copy dereferences to the same value after the
simulation block. -/
lemma simBlockH_stored (h : Heap) (e : Nat) (sel : Option String) (d : Nat)
    (he : e < h.cells.length) :
    readRef (simBlockH h e sel d).1 e = readRef h e := by
  show (simBlockH h e sel d).1.cells.getD e [] = readRef h e
  rw [(simBlockH_spec h e sel d).1]
  exact getD_append_lt h.cells _ e [] he

/-- The rendered `gantt_df` reference of the block dereferences to the
pure simulation result. -/
lemma simBlockH_gantt (h : Heap) (e : Nat) (sel : Option String) (d : Nat) :
    readRef (simBlockH h e sel d).1 (simBlockH h e sel d).2.1 =
      (simulate (readRef h e) sel d).gantt_df := by
  show (simBlockH h e sel d).1.cells.getD (simBlockH h e sel d).2.1 [] = _
  rw [(simBlockH_spec h e sel d).1, (simBlockH_spec h e sel d).2.1]
  exact getD_append_self h.cells [] _ []

/-- The block grows the heap by exactly one cell. -/
lemma simBlockH_length (h : Heap) (e : Nat) (sel : Option String) (d : Nat) :
    (simBlockH h e sel d).1.cells.length = h.cells.length + 1 := by
  rw [(simBlockH_spec h e sel d).1]
  simp

/-- Claim C1: for every working copy, every task name matching exactly one
row, and every delay in 1..12 (covered uniformly for any delay up to 12),
`cost_impact` is exactly `delay_weeks * Weekly_Cost_k` of the matched row;
for `delay_weeks = 0` or when no row matches, `cost_impact` is 0. -/
theorem cost_linearity (wc : List Task) (t : String) (d : Nat) (row : Task)
    (ht : t ≠ "") (hd : d ≤ 12) :
    (wc.filter (fun r => r.task == t) = [row] →
      (simulate wc (some t) d).cost_impact = (d : Int) * row.weekly_cost_k) ∧
    (wc.filter (fun r => r.task == t) = [] →
      (simulate wc (some t) d).cost_impact = 0) ∧
    (simulate wc (some t) 0).cost_impact = 0 := by
  refine ⟨?_, ?_, by rw [simulate_of_zero]⟩
  · intro hm
    rcases Nat.eq_zero_or_pos d with rfl | hp
    · rw [simulate_of_zero]; simp
    · obtain ⟨pre, post, hwc, hpre, hsim⟩ := simulate_match wc t d row [] ht hp hm
      rw [hsim]
  · intro hm
    rcases Nat.eq_zero_or_pos d with rfl | hp
    · rw [simulate_of_zero]
    · rcases eq_or_ne wc [] with rfl | hwc
      · rw [simulate_of_empty]
      · rw [simulate_hit wc t d ht hp hwc, simulateHit_of_nomatch wc t d hm]

/-- Claim C1 witness: on `[taskA, taskB]`, delaying task `A`
(weekly cost 5) by 3 weeks costs exactly `3 * 5`. -/
theorem cost_linearity_witness :
    (("A" : String) ≠ "" ∧ (3 : Nat) ≤ 12) ∧
    (([taskA, taskB].filter (fun r => r.task == "A") = [taskA] →
        (simulate [taskA, taskB] (some "A") 3).cost_impact =
          (3 : Int) * taskA.weekly_cost_k) ∧
      ([taskA, taskB].filter (fun r => r.task == "A") = [] →
        (simulate [taskA, taskB] (some "A") 3).cost_impact = 0) ∧
      (simulate [taskA, taskB] (some "A") 0).cost_impact = 0) :=
  ⟨⟨by decide, by decide⟩,
    cost_linearity [taskA, taskB] "A" 3 taskA (by decide) (by decide)⟩

/-- Claim C4: delaying by 0 weeks is the identity: the rendered collection
equals the working copy in every row and field, `cost_impact` is 0, and
no cascade message is produced (the `impact_text` stays `""`). -/
theorem simulate_zero_identity (wc : List Task) (t : String) :
    simulate wc (some t) 0 =
      { gantt_df := wc, cost_impact := 0, impact_text := "" } :=
  simulate_of_zero wc (some t)

/-- Claim C5: with a positive delay and a uniquely matching task name,
exactly one row changes, its `finish` moves by `7 * delay_weeks` days
(and really changes), and every other field of that row is preserved. -/
theorem single_field_mutation (wc : List Task) (t : String) (d : Nat) (row : Task)
    (ht : t ≠ "") (hd : 0 < d)
    (hm : wc.filter (fun r => r.task == t) = [row]) :
    (∃ pre post, wc = pre ++ row :: post ∧
      (simulate wc (some t) d).gantt_df = pre ++ delayFinish d row :: post) ∧
    (delayFinish d row).finish = row.finish + 7 * (d : Int) ∧
    (delayFinish d row).finish ≠ row.finish ∧
    (delayFinish d row).task = row.task ∧
    (delayFinish d row).site = row.site ∧
    (delayFinish d row).start = row.start ∧
    (delayFinish d row).weekly_cost_k = row.weekly_cost_k ∧
    (delayFinish d row).dependencies = row.dependencies ∧
    (delayFinish d row).status = row.status := by
  obtain ⟨pre, post, hwc, hpre, hsim⟩ := simulate_match wc t d row [] ht hd hm
  refine ⟨⟨pre, post, hwc, by rw [hsim]⟩, rfl, ?_, rfl, rfl, rfl, rfl, rfl, rfl⟩
  show row.finish + 7 * (d : Int) ≠ row.finish
  omega

/-- Claim C5 witness: delaying task `A` of `[taskA, taskB]` by 2 weeks
shifts only `taskA`, and only its finish (by 14 days). -/
theorem single_field_mutation_witness :
    (("A" : String) ≠ "" ∧ (0 : Nat) < 2 ∧
      [taskA, taskB].filter (fun r => r.task == "A") = [taskA]) ∧
    ((∃ pre post, [taskA, taskB] = pre ++ taskA :: post ∧
        (simulate [taskA, taskB] (some "A") 2).gantt_df =
          pre ++ delayFinish 2 taskA :: post) ∧
      (delayFinish 2 taskA).finish = taskA.finish + 7 * (2 : Int) ∧
      (delayFinish 2 taskA).finish ≠ taskA.finish ∧
      (delayFinish 2 taskA).task = taskA.task ∧
      (delayFinish 2 taskA).site = taskA.site ∧
      (delayFinish 2 taskA).start = taskA.start ∧
      (delayFinish 2 taskA).weekly_cost_k = taskA.weekly_cost_k ∧
      (delayFinish 2 taskA).dependencies = taskA.dependencies ∧
      (delayFinish 2 taskA).status = taskA.status) :=
  ⟨⟨by decide, by decide, by decide⟩,
    single_field_mutation [taskA, taskB] "A" 2 taskA (by decide) (by decide) (by decide)⟩

/-- Claim C7: on an empty working copy the block is a no-op for every
selection and delay (the guard on line 244 short-circuits before any
lookup), and the controls (lines 231-237) make no task selectable, force
the delay to 0 and report "No portfolio data for selected site.". -/
theorem empty_portfolio_short_circuit (sel : Option String) (d choice slider : Nat) :
    simulate [] sel d = { gantt_df := [], cost_impact := 0, impact_text := "" } ∧
    simulationControls [] choice slider =
      (none, 0, some "No portfolio data for selected site.") :=
  ⟨simulate_of_empty sel d, rfl⟩

/-- Claim C3: after a successful delay, the cascade message names the
delayed task and the first row in iteration order whose `Dependencies`
equals the delayed task name (only the first, even when several rows
depend on it); when no row depends on it, `impact_text` stays `""` (and
the page then renders the no-conflict success banner). -/
theorem cascade_first_dependent (wc : List Task) (t : String) (d : Nat)
    (c : Task) (rest : List Task) (ht : t ≠ "") (hd : 0 < d)
    (hne : wc.filter (fun r => r.task == t) ≠ []) :
    (wc.filter (fun r => r.dependencies == some t) = [] →
      (simulate wc (some t) d).impact_text = "" ∧
      impactBanner (simulate wc (some t) d).impact_text = noConflictText) ∧
    (wc.filter (fun r => r.dependencies == some t) = c :: rest →
      (simulate wc (some t) d).impact_text = cascadeMessage t c.task) := by
  obtain ⟨row, rest0, hm⟩ :
      ∃ row rest0, wc.filter (fun r => r.task == t) = row :: rest0 := by
    cases hh : wc.filter (fun r => r.task == t) with
    | nil => exact absurd hh hne
    | cons a as => exact ⟨a, as, rfl⟩
  obtain ⟨pre, post, hwc, hpre, hsim⟩ := simulate_match wc t d row rest0 ht hd hm
  have hmap := filter_dep_delay pre post row d t
  constructor
  · intro hdep
    rw [hwc] at hdep
    rw [hdep] at hmap
    have hnil : ((pre ++ delayFinish d row :: post).filter
        fun r => r.dependencies == some t) = [] := by
      simpa using hmap
    have htext : (simulate wc (some t) d).impact_text = "" := by
      rw [hsim]
      show cascadeText (pre ++ delayFinish d row :: post) t = ""
      unfold cascadeText
      rw [hnil]
    exact ⟨htext, by rw [htext]; rfl⟩
  · intro hdep
    rw [hwc] at hdep
    rw [hdep] at hmap
    cases hg : ((pre ++ delayFinish d row :: post).filter
        fun r => r.dependencies == some t) with
    | nil => rw [hg] at hmap; simp at hmap
    | cons c2 r2 =>
      rw [hg] at hmap
      have hct : c2.task = c.task := (List.cons.inj hmap).1
      rw [hsim]
      show cascadeText (pre ++ delayFinish d row :: post) t = cascadeMessage t c.task
      unfold cascadeText
      rw [hg]
      show cascadeMessage t c2.task = cascadeMessage t c.task
      rw [hct]

/-- Claim C3 witness: delaying `A` in `[taskA, taskB, taskC]` reports a
cascade naming `A` and `B` (the first dependent), and the no-dependent
branch is available with its antecedent concrete. -/
theorem cascade_first_dependent_witness :
    (("A" : String) ≠ "" ∧ (0 : Nat) < 3 ∧
      [taskA, taskB, taskC].filter (fun r => r.task == "A") ≠ []) ∧
    (([taskA, taskB, taskC].filter (fun r => r.dependencies == some "A") = [] →
        (simulate [taskA, taskB, taskC] (some "A") 3).impact_text = "" ∧
        impactBanner (simulate [taskA, taskB, taskC] (some "A") 3).impact_text =
          noConflictText) ∧
      ([taskA, taskB, taskC].filter (fun r => r.dependencies == some "A") =
          taskB :: [] →
        (simulate [taskA, taskB, taskC] (some "A") 3).impact_text =
          cascadeMessage "A" taskB.task)) :=
  ⟨⟨by decide, by decide, by decide⟩,
    cascade_first_dependent [taskA, taskB, taskC] "A" 3 taskB []
      (by decide) (by decide) (by decide)⟩

/-- Claim C6 as amended: when no row matches the selected name the block
is a no-op (unchanged collection, zero cost, no message, and being a
total function it raises nothing); but when several rows share the name,
the block is NOT a no-op: it delays the first matching row and charges
its weekly cost, exactly as in the unique-match case. -/
theorem no_match_noop_duplicates_delay_first (wc : List Task) (t : String)
    (d : Nat) (row : Task) (rest : List Task) (ht : t ≠ "") :
    (wc.filter (fun r => r.task == t) = [] →
      simulate wc (some t) d =
        { gantt_df := wc, cost_impact := 0, impact_text := "" }) ∧
    (0 < d → wc.filter (fun r => r.task == t) = row :: rest →
      (simulate wc (some t) d).cost_impact = (d : Int) * row.weekly_cost_k ∧
      ∃ pre post, wc = pre ++ row :: post ∧
        (simulate wc (some t) d).gantt_df = pre ++ delayFinish d row :: post) := by
  constructor
  · intro hm
    rcases Nat.eq_zero_or_pos d with rfl | hp
    · exact simulate_of_zero wc (some t)
    · rcases eq_or_ne wc [] with rfl | hwc
      · exact simulate_of_empty (some t) d
      · rw [simulate_hit wc t d ht hp hwc]
        exact simulateHit_of_nomatch wc t d hm
  · intro hp hm
    obtain ⟨pre, post, hwc, hpre, hsim⟩ := simulate_match wc t d row rest ht hp hm
    exact ⟨by rw [hsim], pre, post, hwc, by rw [hsim]⟩

/-- Claim C6 counterexample: with two rows both named `A`, delaying `A`
by 5 weeks is not a no-op — the collection changes (the first `A` row is
delayed), contradicting the claimed "ambiguous match is a no-op". -/
theorem duplicate_names_not_noop_cex :
    (simulate [taskA, taskAdup] (some "A") 5).gantt_df ≠ [taskA, taskAdup] ∧
    (simulate [taskA, taskAdup] (some "A") 5).gantt_df =
      [delayFinish 5 taskA, taskAdup] ∧
    (simulate [taskA, taskAdup] (some "A") 5).cost_impact = 25 := by
  refine ⟨?_, ?_, ?_⟩ <;> decide

/-- Claim C6 witness (amended statement): on the duplicate collection
`[taskA, taskAdup]` the first matching row is delayed and charged. -/
theorem no_match_noop_duplicates_delay_first_witness :
    (("A" : String) ≠ "") ∧
    (([taskA, taskAdup].filter (fun r => r.task == "A") = [] →
        simulate [taskA, taskAdup] (some "A") 5 =
          { gantt_df := [taskA, taskAdup], cost_impact := 0, impact_text := "" }) ∧
      (0 < 5 → [taskA, taskAdup].filter (fun r => r.task == "A") =
          taskA :: [taskAdup] →
        (simulate [taskA, taskAdup] (some "A") 5).cost_impact =
          (5 : Int) * taskA.weekly_cost_k ∧
        ∃ pre post, [taskA, taskAdup] = pre ++ taskA :: post ∧
          (simulate [taskA, taskAdup] (some "A") 5).gantt_df =
            pre ++ delayFinish 5 taskA :: post)) :=
  ⟨by decide,
    no_match_noop_duplicates_delay_first [taskA, taskAdup] "A" 5 taskA [taskAdup]
      (by decide)⟩

/-- Claim C2 as amended: with a positive delay and a unique match the
simulator writes `original_finish + 7 * delay_weeks` days into the
matched row of a FRESH copy of the stored working copy (the rendered
`gantt_df`); the session's stored working copy itself is left untouched,
so the mutation does not persist across the invocation. -/
theorem delay_written_to_fresh_copy (h : Heap) (e : Nat) (t : String) (d : Nat)
    (row : Task) (he : e < h.cells.length) (ht : t ≠ "") (hd : 0 < d)
    (hm : (readRef h e).filter (fun r => r.task == t) = [row]) :
    (∃ pre post,
      readRef h e = pre ++ row :: post ∧
      readRef (simBlockH h e (some t) d).1 (simBlockH h e (some t) d).2.1 =
        pre ++ delayFinish d row :: post) ∧
    (delayFinish d row).finish = row.finish + 7 * (d : Int) ∧
    readRef (simBlockH h e (some t) d).1 e = readRef h e := by
  obtain ⟨pre, post, hwc, hpre, hsim⟩ :=
    simulate_match (readRef h e) t d row [] ht hd hm
  refine ⟨⟨pre, post, hwc, ?_⟩, rfl, simBlockH_stored h e (some t) d he⟩
  rw [simBlockH_gantt, hsim]

/-- Claim C2 counterexample: on the stored working copy `[taskA, taskB]`
(heap cell 0), delaying `A` by 5 weeks leaves cell 0 holding the original
rows — not the shifted ones — so the claimed in-place, persistent
mutation of the stored working copy does not happen. -/
theorem stored_working_copy_not_mutated_cex :
    readRef (simBlockH hEx 0 (some "A") 5).1 0 = [taskA, taskB] ∧
    [taskA, taskB] ≠ [delayFinish 5 taskA, taskB] ∧
    readRef (simBlockH hEx 0 (some "A") 5).1 (simBlockH hEx 0 (some "A") 5).2.1 =
      [delayFinish 5 taskA, taskB] := by
  refine ⟨?_, ?_, ?_⟩ <;> decide

/-- Claim C2 witness (amended statement): the concrete delay on the heap
`hEx`, exhibiting the fresh-copy mutation and the untouched stored copy. -/
theorem delay_written_to_fresh_copy_witness :
    ((0 : Nat) < 1 ∧ ("A" : String) ≠ "" ∧ (0 : Nat) < 5 ∧
      (readRef hEx 0).filter (fun r => r.task == "A") = [taskA]) ∧
    ((∃ pre post,
        readRef hEx 0 = pre ++ taskA :: post ∧
        readRef (simBlockH hEx 0 (some "A") 5).1 (simBlockH hEx 0 (some "A") 5).2.1 =
          pre ++ delayFinish 5 taskA :: post) ∧
      (delayFinish 5 taskA).finish = taskA.finish + 7 * (5 : Int) ∧
      readRef (simBlockH hEx 0 (some "A") 5).1 0 = readRef hEx 0) :=
  ⟨⟨by decide, by decide, by decide, by decide⟩,
    delay_written_to_fresh_copy hEx 0 "A" 5 taskA
      (by decide) (by decide) (by decide) (by decide)⟩

/-- Claim C8: for a specific (non-sentinel) site the filter returns
exactly the rows whose `Site` equals it (membership both ways, no
omission), the sentinel returns the whole collection, results for two
distinct specific sites are disjoint, and every row of the collection is
recovered by the filter at its own site value (so the per-site results
cover the full collection). -/
theorem site_filter_partition (wc : List Task) (r : Task) (s s1 s2 : String)
    (hr : r ∈ wc) (hs : s ≠ ALL_SITES) (h1 : s1 ≠ ALL_SITES)
    (h2 : s2 ≠ ALL_SITES) (h12 : s1 ≠ s2) :
    filter_df_by_site s wc = wc.filter (fun x => x.site == s) ∧
    (r ∈ filter_df_by_site s wc ↔ r.site = s) ∧
    filter_df_by_site ALL_SITES wc = wc ∧
    (r ∈ filter_df_by_site s1 wc → r ∉ filter_df_by_site s2 wc) ∧
    r ∈ filter_df_by_site r.site wc := by
  have hfil : ∀ u : String, u ≠ ALL_SITES →
      filter_df_by_site u wc = wc.filter (fun x => x.site == u) := by
    intro u hu
    rw [filter_df_by_site, if_pos hu]
  have hall : filter_df_by_site ALL_SITES wc = wc := by
    rw [filter_df_by_site, if_neg]
    simp
  have hmem : ∀ u : String, u ≠ ALL_SITES →
      (r ∈ filter_df_by_site u wc ↔ r.site = u) := by
    intro u hu
    rw [hfil u hu, List.mem_filter]
    simp [hr]
  refine ⟨hfil s hs, hmem s hs, hall, ?_, ?_⟩
  · intro hin hin2
    exact h12 (((hmem s1 h1).mp hin).symm.trans ((hmem s2 h2).mp hin2))
  · rcases eq_or_ne r.site ALL_SITES with hrs | hrs
    · rw [hrs, hall]
      exact hr
    · exact (hmem r.site hrs).mpr rfl

/-- Claim C8 witness: the filter on `[taskA, taskB]` for San Diego and
Seattle, with `taskA` as the probed row. -/
theorem site_filter_partition_witness :
    (taskA ∈ [taskA, taskB] ∧ ("San Diego" : String) ≠ ALL_SITES ∧
      ("San Diego" : String) ≠ ALL_SITES ∧ ("Seattle" : String) ≠ ALL_SITES ∧
      ("San Diego" : String) ≠ "Seattle") ∧
    (filter_df_by_site "San Diego" [taskA, taskB] =
        [taskA, taskB].filter (fun x => x.site == "San Diego") ∧
      (taskA ∈ filter_df_by_site "San Diego" [taskA, taskB] ↔
        taskA.site = "San Diego") ∧
      filter_df_by_site ALL_SITES [taskA, taskB] = [taskA, taskB] ∧
      (taskA ∈ filter_df_by_site "San Diego" [taskA, taskB] →
        taskA ∉ filter_df_by_site "Seattle" [taskA, taskB]) ∧
      taskA ∈ filter_df_by_site taskA.site [taskA, taskB]) :=
  ⟨⟨by decide, by decide, by decide, by decide, by decide⟩,
    site_filter_partition [taskA, taskB] taskA "San Diego" "San Diego" "Seattle"
      (by decide) (by decide) (by decide) (by decide) (by decide)⟩

/-- Claim C9: `load` (the site filter, which copies) and `reset` never
mutate the baseline cell, and each call yields a freshly allocated,
independently mutable cell: two resets give two distinct references,
each dereferencing to the baseline value, and overwriting one of them
changes neither the other copy nor the baseline. -/
theorem reset_isolation (h : Heap) (b : Nat) (v : List Task) (s : String)
    (hb : b < h.cells.length) :
    readRef (resetTwice h b).1 (resetTwice h b).2.1 = readRef h b ∧
    readRef (resetTwice h b).1 (resetTwice h b).2.2 = readRef h b ∧
    readRef (resetTwice h b).1 b = readRef h b ∧
    (resetTwice h b).2.1 ≠ (resetTwice h b).2.2 ∧
    (resetTwice h b).2.1 ≠ b ∧
    (resetTwice h b).2.2 ≠ b ∧
    readRef (writeRef (resetTwice h b).1 (resetTwice h b).2.1 v)
      (resetTwice h b).2.2 = readRef h b ∧
    readRef (writeRef (resetTwice h b).1 (resetTwice h b).2.1 v) b = readRef h b ∧
    readRef (loadH h b s).1 b = readRef h b ∧
    (loadH h b s).2 ≠ b ∧
    readRef (loadH h b s).1 (loadH h b s).2 =
      filter_df_by_site s (readRef h b) := by
  have hvb1 : readRef (resetH h b).1 b = readRef h b :=
    getD_append_lt h.cells [readRef h b] b [] hb
  have hlt1 : h.cells.length < ((h.cells ++ [readRef h b])).length := by
    simp
  have g1 : readRef (resetTwice h b).1 (resetTwice h b).2.1 = readRef h b := by
    show ((h.cells ++ [readRef h b]) ++ [readRef (resetH h b).1 b]).getD
        h.cells.length [] = readRef h b
    rw [getD_append_lt _ _ _ _ hlt1]
    exact getD_append_self h.cells [] (readRef h b) []
  have g2 : readRef (resetTwice h b).1 (resetTwice h b).2.2 = readRef h b := by
    show ((h.cells ++ [readRef h b]) ++ (readRef (resetH h b).1 b) :: []).getD
        (h.cells ++ [readRef h b]).length [] = readRef h b
    exact (getD_append_self (h.cells ++ [readRef h b]) [] _ []).trans hvb1
  have g3 : readRef (resetTwice h b).1 b = readRef h b := by
    show ((h.cells ++ [readRef h b]) ++ [readRef (resetH h b).1 b]).getD b [] =
      readRef h b
    rw [getD_append_lt _ _ _ _ (by simp; omega)]
    exact getD_append_lt h.cells [readRef h b] b [] hb
  have hne12 : (resetTwice h b).2.1 ≠ (resetTwice h b).2.2 := by
    show h.cells.length ≠ (h.cells ++ [readRef h b]).length
    simp
  have hne1b : (resetTwice h b).2.1 ≠ b := by
    show h.cells.length ≠ b
    omega
  have hne2b : (resetTwice h b).2.2 ≠ b := by
    show (h.cells ++ [readRef h b]).length ≠ b
    simp
    omega
  refine ⟨g1, g2, g3, hne12, hne1b, hne2b, ?_, ?_, ?_, ?_, ?_⟩
  · show (((resetTwice h b).1.cells).set (resetTwice h b).2.1 v).getD
        (resetTwice h b).2.2 [] = readRef h b
    rw [getD_set_ne _ _ _ _ _ hne12]
    exact g2
  · show (((resetTwice h b).1.cells).set (resetTwice h b).2.1 v).getD b [] =
      readRef h b
    rw [getD_set_ne _ _ _ _ _ hne1b]
    exact g3
  · show (h.cells ++ [filter_df_by_site s (readRef h b)]).getD b [] = readRef h b
    exact getD_append_lt h.cells _ b [] hb
  · show h.cells.length ≠ b
    omega
  · show (h.cells ++ (filter_df_by_site s (readRef h b)) :: []).getD
        h.cells.length [] = filter_df_by_site s (readRef h b)
    exact getD_append_self h.cells [] _ []

/-- Claim C9 witness: a one-cell baseline heap holding `[taskA]`, reset
twice, with the first copy overwritten by `[taskC]`. -/
theorem reset_isolation_witness :
    ((0 : Nat) < 1) ∧
    (readRef (resetTwice ⟨[[taskA]]⟩ 0).1 (resetTwice ⟨[[taskA]]⟩ 0).2.1 =
        readRef ⟨[[taskA]]⟩ 0 ∧
      readRef (resetTwice ⟨[[taskA]]⟩ 0).1 (resetTwice ⟨[[taskA]]⟩ 0).2.2 =
        readRef ⟨[[taskA]]⟩ 0 ∧
      readRef (resetTwice ⟨[[taskA]]⟩ 0).1 0 = readRef ⟨[[taskA]]⟩ 0 ∧
      (resetTwice ⟨[[taskA]]⟩ 0).2.1 ≠ (resetTwice ⟨[[taskA]]⟩ 0).2.2 ∧
      (resetTwice ⟨[[taskA]]⟩ 0).2.1 ≠ 0 ∧
      (resetTwice ⟨[[taskA]]⟩ 0).2.2 ≠ 0 ∧
      readRef (writeRef (resetTwice ⟨[[taskA]]⟩ 0).1 (resetTwice ⟨[[taskA]]⟩ 0).2.1
        [taskC]) (resetTwice ⟨[[taskA]]⟩ 0).2.2 = readRef ⟨[[taskA]]⟩ 0 ∧
      readRef (writeRef (resetTwice ⟨[[taskA]]⟩ 0).1 (resetTwice ⟨[[taskA]]⟩ 0).2.1
        [taskC]) 0 = readRef ⟨[[taskA]]⟩ 0 ∧
      readRef (loadH ⟨[[taskA]]⟩ 0 "San Diego").1 0 = readRef ⟨[[taskA]]⟩ 0 ∧
      (loadH ⟨[[taskA]]⟩ 0 "San Diego").2 ≠ 0 ∧
      readRef (loadH ⟨[[taskA]]⟩ 0 "San Diego").1 (loadH ⟨[[taskA]]⟩ 0 "San Diego").2 =
        filter_df_by_site "San Diego" (readRef ⟨[[taskA]]⟩ 0)) :=
  ⟨by decide, reset_isolation ⟨[[taskA]]⟩ 0 [taskC] "San Diego" (by decide)⟩

/-- Claim C10: reruns of the simulation block never accumulate.  Every
invocation copies the stored working copy before shifting and never
writes the shifted frame back, so after any number of reruns with the
same selection and delay the rendered `gantt_df` equals the result of a
single run (stored finish plus exactly one delay) and the stored working
copy still dereferences to its original value. -/
theorem simulate_no_accumulation (e : Nat) (sel : Option String) (d n : Nat) :
    ∀ h : Heap, e < h.cells.length →
      readRef (runSims e sel d n h).1 (runSims e sel d n h).2 =
        (simulate (readRef h e) sel d).gantt_df ∧
      readRef (runSims e sel d n h).1 e = readRef h e := by
  induction n with
  | zero =>
    intro h he
    exact ⟨simBlockH_gantt h e sel d, simBlockH_stored h e sel d he⟩
  | succ m ih =>
    intro h he
    have hst := simBlockH_stored h e sel d he
    have hlen : e < (simBlockH h e sel d).1.cells.length := by
      rw [simBlockH_length]
      omega
    have hrec := ih (simBlockH h e sel d).1 hlen
    rw [hst] at hrec
    exact hrec

/-- Claim C10 witness: three successive reruns on the heap `hEx` render
the same schedule as one run, and cell 0 keeps its original value. -/
theorem simulate_no_accumulation_witness :
    ((0 : Nat) < 1) ∧
    (readRef (runSims 0 (some "A") 5 2 hEx).1 (runSims 0 (some "A") 5 2 hEx).2 =
        (simulate (readRef hEx 0) (some "A") 5).gantt_df ∧
      readRef (runSims 0 (some "A") 5 2 hEx).1 0 = readRef hEx 0) :=
  ⟨by decide, simulate_no_accumulation 0 (some "A") 5 2 hEx (by decide)⟩

end Vertex
